import Mathlib

/-!
Verification of the sedock real-time file-access capture pipeline.

Shallow embedding of the monitor core (src/monitor/fanotify.rs,
src/monitor/event.rs, src/monitor/process.rs, src/utils/types.rs).
Rust strings are modelled as `List Char`; byte-indexed operations use
`Char.utf8Size` so that `&s[..n]` slicing (which panics off a char
boundary) is represented faithfully.  Filesystem and clock effects are
passed in explicitly as per-call responses.
-/

/-! ## Rust string primitives -/

/-- Sum of UTF-8 widths: model of Rust `str::len` (byte length). -/
def byteLen (s : List Char) : Nat := (s.map Char.utf8Size).sum

/-- Model of Rust `char::is_whitespace` (Unicode `White_Space`). -/
def isRustWhitespace (c : Char) : Bool :=
  let n := c.toNat
  (n == 0x09) || (n == 0x0A) || (n == 0x0B) || (n == 0x0C) || (n == 0x0D) ||
  (n == 0x20) || (n == 0x85) || (n == 0xA0) || (n == 0x1680) ||
  (0x2000 ≤ n && n ≤ 0x200A) || (n == 0x2028) || (n == 0x2029) ||
  (n == 0x202F) || (n == 0x205F) || (n == 0x3000)

/-- Drop leading whitespace: the head-side half of Rust `str::trim`. -/
def trimStartWs : List Char → List Char
  | [] => []
  | c :: cs => if isRustWhitespace c then trimStartWs cs else c :: cs

/-- Model of Rust `str::trim`. -/
def rustTrim (s : List Char) : List Char :=
  (trimStartWs (trimStartWs s).reverse).reverse

/-- Model of Rust `str::split(sep)`: always returns at least one piece. -/
def splitChar (sep : Char) : List Char → List (List Char)
  | [] => [[]]
  | c :: cs =>
    match splitChar sep cs with
    | [] => if c == sep then [[], []] else [[c]]
    | h :: t => if c == sep then [] :: h :: t else (c :: h) :: t

/-- Model of Rust `str::split_terminator(sep)`: like split, but a final
empty piece produced by a trailing separator is dropped. -/
def splitTerminator (sep : Char) (s : List Char) : List (List Char) :=
  let p := splitChar sep s
  if p.getLast? = some [] then p.dropLast else p

/-- Strip one trailing carriage return, as Rust `lines` does per line. -/
def stripCR (l : List Char) : List Char :=
  if l.getLast? = some '\r' then l.dropLast else l

/-- Model of Rust `str::lines`. -/
def rustLines (s : List Char) : List (List Char) :=
  (splitTerminator '\n' s).map stripCR

/-- Accumulator worker for `splitWhitespace` (`acc` holds the current
word reversed). -/
def splitWhitespaceAux (acc : List Char) : List Char → List (List Char)
  | [] => if acc.isEmpty then [] else [acc.reverse]
  | c :: cs =>
    if isRustWhitespace c then
      if acc.isEmpty then splitWhitespaceAux [] cs
      else acc.reverse :: splitWhitespaceAux [] cs
    else splitWhitespaceAux (c :: acc) cs

/-- Model of Rust `str::split_whitespace`. -/
def splitWhitespace (s : List Char) : List (List Char) :=
  splitWhitespaceAux [] s

/-- Decimal digit value of an ASCII character, if any. -/
def digitVal (c : Char) : Option Nat :=
  if '0' ≤ c && c ≤ '9' then some (c.toNat - 48) else none

/-- Fold a digit run left to right. -/
def parseDigitsAux (acc : Nat) : List Char → Option Nat
  | [] => some acc
  | c :: cs =>
    match digitVal c with
    | some d => parseDigitsAux (acc * 10 + d) cs
    | none => none

/-- Non-empty all-digit parse. -/
def parseNatDigits (l : List Char) : Option Nat :=
  if l.isEmpty then none else parseDigitsAux 0 l

/-- Model of Rust `str::parse::<u32>`: optional leading `+`, decimal
digits, range-checked. -/
def parseU32 (l : List Char) : Option Nat :=
  let body := match l with
    | '+' :: rest => rest
    | _ => l
  match parseNatDigits body with
  | some v => if v < 2 ^ 32 then some v else none
  | none => none

/-- Model of Rust `str::parse::<i32>`: optional sign, decimal digits,
range-checked. -/
def parseI32 (l : List Char) : Option Int :=
  match l with
  | '-' :: rest =>
    (parseNatDigits rest).bind fun v =>
      if v ≤ 2 ^ 31 then some (-(v : Int)) else none
  | '+' :: rest =>
    (parseNatDigits rest).bind fun v =>
      if v < 2 ^ 31 then some (v : Int) else none
  | _ =>
    (parseNatDigits l).bind fun v =>
      if v < 2 ^ 31 then some (v : Int) else none

/-- Fuel-driven worker for `trimEndMatches`; one fuel unit per stripped
copy of the pattern, so `s.length` fuel is always enough. -/
def trimEndMatchesAux (pat : List Char) : Nat → List Char → List Char
  | 0, s => s
  | f + 1, s =>
    if ¬pat.isEmpty && pat.isSuffixOf s then
      trimEndMatchesAux pat f (s.take (s.length - pat.length))
    else s

/-- Model of Rust `str::trim_end_matches(pat)` for a non-empty pattern:
repeatedly removes the pattern as long as it is a suffix. -/
def trimEndMatches (pat s : List Char) : List Char :=
  trimEndMatchesAux pat s.length s

/-- Byte-indexed prefix: model of Rust slicing `&s[..n]`.  `none` means
the slice panics (byte `n` is out of range or not a char boundary). -/
def byteTake (s : List Char) (n : Nat) : Option (List Char) :=
  match s, n with
  | _, 0 => some []
  | [], _ + 1 => none
  | c :: cs, m + 1 =>
    if c.utf8Size ≤ m + 1 then
      (byteTake cs (m + 1 - c.utf8Size)).map (fun r => c :: r)
    else none

/-- Characters after the last `/`, if any: models
`line.rfind('/')` followed by `&line[pos + 1..]`. -/
def tailAfterLastSlash : List Char → Option (List Char)
  | [] => none
  | c :: cs =>
    match tailAfterLastSlash cs with
    | some t => some t
    | none => if c == '/' then some cs else none

/-- `pat` occurs contiguously inside `l`. -/
def occursIn (pat l : List Char) : Prop := ∃ s t, l = s ++ pat ++ t

/-! ## Event deduplicator (src/monitor/event.rs) -/

/-- State of `EventDeduplicator`: the last-seen `(pid, mask, path)`. -/
structure EventDeduplicator where
  last_pid : Int
  last_mask : Nat
  last_path : List Char
  deriving DecidableEq

/-- `EventDeduplicator::new()`: pid 0, mask 0, empty path. -/
def EventDeduplicator.new : EventDeduplicator := ⟨0, 0, []⟩

/-- `EventDeduplicator::is_duplicate`: reports whether all three fields
equal the stored state, then unconditionally overwrites the state. -/
def is_duplicate (d : EventDeduplicator) (pid : Int) (mask : Nat)
    (path : List Char) : Bool × EventDeduplicator :=
  ((pid == d.last_pid && mask == d.last_mask && path == d.last_path),
   ⟨pid, mask, path⟩)

/-! ## Mask classification (src/monitor/fanotify.rs) -/

def FAN_OPEN : Nat := 0x20
def FAN_ACCESS : Nat := 0x01
def FAN_MODIFY : Nat := 0x02

/-- `EventType` from src/utils/types.rs. -/
inductive EventType where
  | Open
  | Read
  | Write
  | Modify
  deriving DecidableEq

/-- `Display` for `EventType`. -/
def eventTypeName : EventType → List Char
  | .Open => ("OPEN").data
  | .Read => ("READ").data
  | .Write => ("WRITE").data
  | .Modify => ("MODIFY").data

/-- The mask classification at the top of `handle_event`:
MODIFY bit first, then OPEN bit, else READ. -/
def classifyMask (mask : Nat) : EventType :=
  if mask &&& FAN_MODIFY ≠ 0 then .Write
  else if mask &&& FAN_OPEN ≠ 0 then .Open
  else .Read

/-! ## Errors (src/utils/error.rs) and proc reads -/

/-- The shape of a failed `fs::read_to_string`: either `NotFound` or
another error kind carrying `raw_os_error()`. -/
inductive IoErrorCase where
  | notFound
  | other (rawOs : Option Int)
  deriving DecidableEq

/-- The `SedockerError` variants the monitor core produces. -/
inductive SedockerError where
  | ProcessGone (pid : Int)
  | SystemErr (msg : List Char)
  deriving DecidableEq

/-- `/proc/<pid>/status` path string. -/
def statusPath (pid : Int) : List Char :=
  ("/proc/").data ++ (toString pid).data ++ ("/status").data

/-- The error mapping shared by `get_ids_from_pid` and
`get_process_info`: `NotFound` and raw OS error 3 (ESRCH) become
`ProcessGone`, everything else `System`. -/
def readErrToSedock (pid : Int) (path : List Char) (e : IoErrorCase) :
    SedockerError :=
  match e with
  | .notFound => .ProcessGone pid
  | .other raw =>
    if raw = some 3 then .ProcessGone pid else .SystemErr path

/-! ## Status-file parsing (src/monitor/process.rs) -/

def uidTag : List Char := ("Uid:").data
def gidTag : List Char := ("Gid:").data
def nspidTag : List Char := ("NSpid:").data
def nameTag : List Char := ("Name:").data

/-- `line.split_whitespace().nth(1)` fed to `parse::<u32>().ok()`. -/
def secondTokenU32 (l : List Char) : Option Nat :=
  ((splitWhitespace l).get? 1).bind parseU32

/-- One line of the `get_ids_from_pid` scan loop. -/
def idsStep (ug : Nat × Nat) (line : List Char) : Nat × Nat :=
  if uidTag.isPrefixOf line then ((secondTokenU32 line).getD 0, ug.2)
  else if gidTag.isPrefixOf line then (ug.1, (secondTokenU32 line).getD 0)
  else ug

/-- The parsing body of `get_ids_from_pid`, given the file content. -/
def get_ids_from_content (content : List Char) : Nat × Nat :=
  (rustLines content).foldl idsStep (0, 0)

/-- `get_ids_from_pid`, with the `/proc/<pid>/status` read passed in as
an explicit result. -/
def get_ids_from_pid (pid : Int)
    (statusRead : Except IoErrorCase (List Char)) :
    Except SedockerError (Nat × Nat) :=
  match statusRead with
  | .error e => .error (readErrToSedock pid (statusPath pid) e)
  | .ok content => .ok (get_ids_from_content content)

/-- One line of the `get_process_info` status scan: updates
`(uid, gid, container_pid, comm)`. -/
def statusStep (acc : Nat × Nat × Option Int × List Char)
    (line : List Char) : Nat × Nat × Option Int × List Char :=
  let (uid, gid, cpid, comm) := acc
  if uidTag.isPrefixOf line then
    ((secondTokenU32 line).getD 0, gid, cpid, comm)
  else if gidTag.isPrefixOf line then
    (uid, (secondTokenU32 line).getD 0, cpid, comm)
  else if nspidTag.isPrefixOf line then
    let pids := (splitWhitespace line).drop 1
    if 2 ≤ pids.length then (uid, gid, pids.getLast?.bind parseI32, comm)
    else (uid, gid, cpid, comm)
  else if nameTag.isPrefixOf line then
    match (splitWhitespace line).get? 1 with
    | some nm => (uid, gid, cpid, nm)
    | none => (uid, gid, cpid, comm)
  else acc

/-- The whole status scan of `get_process_info`, starting from
uid 0, gid 0, no namespace pid, comm "unknown". -/
def statusFields (content : List Char) :
    Nat × Nat × Option Int × List Char :=
  (rustLines content).foldl statusStep (0, 0, none, ("unknown").data)

/-! ## Executable path resolution (src/monitor/process.rs) -/

/-- `" (deleted)"`, the marker the kernel appends to a reaped exe link. -/
def deletedMarker : List Char := (" (deleted)").data

/-- `[<pid>]`, the sentinel used when no path can be resolved. -/
def pidSentinel (pid : Int) : List Char :=
  '[' :: (toString pid).data ++ [']']

/-- Rust `starts_with('[')`. -/
def startsWithBracket (s : List Char) : Bool := s.head? == some '['

/-- Per-pid proc filesystem responses consumed by `get_process_path`:
the `exe` readlink, the `cmdline` read, the existence oracle used for
the `/usr/bin` and `/bin` probes, and the `comm` read. -/
structure ProcEnv where
  exe_link : Option (List Char)
  cmdline : Option (List Char)
  bin_exists : List Char → Bool
  comm_file : Option (List Char)

/-- `get_process_path`: exe symlink (stripping trailing `" (deleted)"`),
then first cmdline argument (absolute, or prefixed with `/usr/bin/` or
`/bin/` when that file exists, or verbatim), then trimmed comm, then
the `[<pid>]` sentinel.  The Rust function returns `Ok` on every path. -/
def get_process_path (pid : Int) (env : ProcEnv) : List Char :=
  match env.exe_link with
  | some path => trimEndMatches deletedMarker path
  | none =>
    let fromCmdline : Option (List Char) :=
      match env.cmdline with
      | some content =>
        let cmd := (splitChar (Char.ofNat 0) content).headI
        if cmd.isEmpty then none
        else if cmd.head? == some '/' then some cmd
        else if env.bin_exists (("/usr/bin/").data ++ cmd) then
          some (("/usr/bin/").data ++ cmd)
        else if env.bin_exists (("/bin/").data ++ cmd) then
          some (("/bin/").data ++ cmd)
        else some cmd
      | none => none
    match fromCmdline with
    | some p => p
    | none =>
      match env.comm_file with
      | some content =>
        let nm := rustTrim content
        if nm.isEmpty then pidSentinel pid else nm
      | none => pidSentinel pid

/-- The exe post-processing at the end of `get_process_info`: a path
with no `/` is looked up in the bin cache by itself; otherwise a path
starting with `[` with a known comm is looked up by comm; otherwise it
is kept.  The bin cache (`BinPathCache.map`) is modelled as an
association list. -/
def resolveExe (binCache : List (List Char × List Char))
    (comm exe : List Char) : List Char :=
  if !(exe.contains '/') then (List.lookup exe binCache).getD exe
  else if startsWithBracket exe && comm != ("unknown").data then
    (List.lookup comm binCache).getD comm
  else exe

/-- `ProcessInfo` from src/utils/types.rs. -/
structure ProcessInfo where
  pid : Int
  uid : Nat
  gid : Nat
  container_pid : Option Int
  comm : List Char
  exe : List Char
  deriving DecidableEq

/-- `get_process_info`: one status read (parsed by `statusFields`),
then `get_process_path`, then the bin-cache exe resolution. -/
def get_process_info (pid : Int)
    (statusRead : Except IoErrorCase (List Char)) (env : ProcEnv)
    (binCache : List (List Char × List Char)) :
    Except SedockerError ProcessInfo :=
  match statusRead with
  | .error e => .error (readErrToSedock pid (statusPath pid) e)
  | .ok content =>
    let (uid, gid, cpid, comm) := statusFields content
    let exe0 := get_process_path pid env
    .ok ⟨pid, uid, gid, cpid, comm, resolveExe binCache comm exe0⟩

/-! ## Container id extraction (src/monitor/process.rs) -/

/-- `extract_container_id`: the segment after the last `/`, trimmed;
its first 12 bytes when it is at least 12 bytes long, itself when
shorter but non-empty.  `Except.error ()` marks the panic of the Rust
byte slice `&id[..12]` when byte 12 is not a char boundary. -/
def extract_container_id (line : List Char) :
    Except Unit (Option (List Char)) :=
  match tailAfterLastSlash line with
  | some rest =>
    let id := rustTrim rest
    if 12 ≤ byteLen id then
      match byteTake id 12 with
      | some p => .ok (some p)
      | none => .error ()
    else if !id.isEmpty then .ok (some id)
    else .ok none
  | none => .ok none

/-- Follows the spec's words only (for comparison with the code):
"hex-compatible characters". -/
def specHexCompatible (c : Char) : Bool :=
  ('0' ≤ c && c ≤ '9') || ('a' ≤ c && c ≤ 'f') || ('A' ≤ c && c ≤ 'F')

/-! ## Emitted record and its JSON form (src/utils/types.rs) -/

/-- `FileAccessEvent`, the emitted record. -/
structure FileAccessEvent where
  event_type : List Char
  timestamp : List Char
  pid : Int
  container_pid : Option Int
  uid : Nat
  gid : Nat
  process_path : List Char
  file_path : List Char
  container_id : Option (List Char)
  deriving DecidableEq

/-- Lowercase hex digit, as serde_json writes in `\u00XX` escapes. -/
def hexDigitChar (n : Nat) : Char :=
  if n < 10 then Char.ofNat (48 + n) else Char.ofNat (87 + n)

/-- serde_json string escaping for one character. -/
def jsonEscapeChar (c : Char) : List Char :=
  if c = '"' then ['\\', '"']
  else if c = '\\' then ['\\', '\\']
  else if c.toNat < 0x20 then
    match c.toNat with
    | 8 => ['\\', 'b']
    | 9 => ['\\', 't']
    | 10 => ['\\', 'n']
    | 12 => ['\\', 'f']
    | 13 => ['\\', 'r']
    | n => ['\\', 'u', '0', '0', hexDigitChar (n / 16), hexDigitChar (n % 16)]
  else [c]

/-- serde_json string literal. -/
def jsonStringLit (s : List Char) : List Char :=
  '"' :: (s.flatMap jsonEscapeChar) ++ ['"']

def intJson (i : Int) : List Char := (toString i).data

def natJson (n : Nat) : List Char := (toString n).data

/-- serde serialization of `Option<i32>` without any skip attribute:
`None` becomes `null`. -/
def optIntJson : Option Int → List Char
  | none => ("null").data
  | some i => intJson i

/-- serde serialization of `Option<String>` without any skip attribute:
`None` becomes `null`. -/
def optStrJson : Option (List Char) → List Char
  | none => ("null").data
  | some s => jsonStringLit s

/-- `serde_json::to_string` on the derived `Serialize` of
`FileAccessEvent`: all nine fields in declaration order; the two
`Option` fields carry no `skip_serializing_if` attribute, so absent
values are written as `null`. -/
def serialize_event (e : FileAccessEvent) : List Char :=
  ("\x7b\"event_type\":").data ++ jsonStringLit e.event_type ++
  (",\"timestamp\":").data ++ jsonStringLit e.timestamp ++
  (",\"pid\":").data ++ intJson e.pid ++
  (",\"container_pid\":").data ++ optIntJson e.container_pid ++
  (",\"uid\":").data ++ natJson e.uid ++
  (",\"gid\":").data ++ natJson e.gid ++
  (",\"process_path\":").data ++ jsonStringLit e.process_path ++
  (",\"file_path\":").data ++ jsonStringLit e.file_path ++
  (",\"container_id\":").data ++ optStrJson e.container_id ++
  ("\x7d").data

/-! ## The event loop (src/monitor/fanotify.rs) -/

/-- `fanotify_event_metadata` as parsed from the batch buffer. -/
structure FanotifyEventMetadata where
  event_len : Nat
  vers : Nat
  metadata_len : Nat
  mask : Nat
  fd : Int
  pid : Int
  deriving DecidableEq

/-- Outcome of the `get_process_info` call for one event:
`Ok`, `Err(ProcessGone)`, or any other `Err`. -/
inductive ProcInfoResult where
  | ok (info : ProcessInfo)
  | gone
  | err
  deriving DecidableEq

def ProcInfoResult.isErr : ProcInfoResult → Bool
  | .err => true
  | _ => false

/-- One record drained from the kernel buffer, bundled with the
environment responses its handling consumes: the
`/proc/self/fd/<fd>` readlink (`file_path`), the process snapshot
result, the container id lookup, the wall clock, and the
`get_process_path` result used by the cache on the ProcessGone path. -/
structure DrainedEvent where
  meta : FanotifyEventMetadata
  file_path : List Char
  proc : ProcInfoResult
  container_id : Option (List Char)
  now : List Char
  path_probe : List Char
  deriving DecidableEq

/-- `LruCache<i32, String>` modelled as a most-recent-first association
list: drop an existing entry for the key. -/
def lruRemove (c : List (Int × List Char)) (k : Int) :
    List (Int × List Char) :=
  c.filter (fun p => p.1 != k)

/-- `LruCache::put` with the capacity 1000 used by `ProcessCache`. -/
def lruPut (c : List (Int × List Char)) (k : Int) (v : List Char) :
    List (Int × List Char) :=
  ((k, v) :: lruRemove c k).take 1000

/-- `LruCache::get`: returns the value and promotes the entry. -/
def lruGet (c : List (Int × List Char)) (k : Int) :
    Option (List Char) × List (Int × List Char) :=
  match List.lookup k c with
  | some v => (some v, (k, v) :: lruRemove c k)
  | none => (none, c)

/-- `ProcessCache::get_or_fetch`: cache hit, else the
`get_process_path` result (cached unless it starts with `[`), else the
`[<pid>]` sentinel. -/
def getOrFetch (c : List (Int × List Char)) (pid : Int)
    (probe : List Char) : List Char × List (Int × List Char) :=
  match lruGet c pid with
  | (some path, c1) => (path, c1)
  | (none, c1) =>
    if startsWithBracket probe then (pidSentinel pid, c1)
    else (probe, lruPut c1 pid probe)

/-- `create_event` from src/monitor/event.rs, with the wall clock
passed in. -/
def create_event (event_type : EventType) (pid : Int)
    (container_pid : Option Int) (uid gid : Nat)
    (process_path file_path : List Char)
    (container_id : Option (List Char)) (now : List Char) :
    FileAccessEvent :=
  ⟨eventTypeName event_type, now, pid, container_pid, uid, gid,
   process_path, file_path, container_id⟩

/-- `handle_event`: classifies the mask, takes identity from the
snapshot when present and from the pid cache (uid 0, gid 0, no
namespace pid) when the process is gone, and composes one record. -/
def handle_event (ev : DrainedEvent) (info? : Option ProcessInfo)
    (cache : List (Int × List Char)) :
    FileAccessEvent × List (Int × List Char) :=
  let event_type := classifyMask ev.meta.mask
  match info? with
  | some info =>
    (create_event event_type ev.meta.pid info.container_pid info.uid
      info.gid info.exe ev.file_path ev.container_id ev.now, cache)
  | none =>
    let pc := getOrFetch cache ev.meta.pid ev.path_probe
    (create_event event_type ev.meta.pid none 0 0 pc.1 ev.file_path
      ev.container_id ev.now, pc.2)

/-- Mutable state carried across records: the optional deduplicator
(absent when dedup is disabled) and the pid→exe cache. -/
structure LoopState where
  dedup : Option EventDeduplicator
  cache : List (Int × List Char)
  deriving DecidableEq

/-- The `should_process` computation of the loop: consult the
deduplicator when enabled (updating it), else pass everything. -/
def dedupCheck (d? : Option EventDeduplicator) (pid : Int) (mask : Nat)
    (path : List Char) : Bool × Option EventDeduplicator :=
  match d? with
  | some d =>
    let r := is_duplicate d pid mask path
    (!r.1, some r.2)
  | none => (true, none)

/-- The loop body for one version-3 record (fanotify.rs lines 167-210):
snapshot-error records are skipped without touching the deduplicator;
otherwise a successful snapshot may populate the pid cache, the
deduplicator decides, and `handle_event` composes the record. -/
def stepRecord (st : LoopState) (ev : DrainedEvent) :
    Option FileAccessEvent × LoopState :=
  match ev.proc with
  | .err => (none, st)
  | .ok info =>
    let cache1 :=
      if startsWithBracket info.exe then st.cache
      else lruPut st.cache ev.meta.pid info.exe
    let sd := dedupCheck st.dedup ev.meta.pid ev.meta.mask ev.file_path
    if sd.1 then
      let hc := handle_event ev (some info) cache1
      (some hc.1, ⟨sd.2, hc.2⟩)
    else (none, ⟨sd.2, cache1⟩)
  | .gone =>
    let sd := dedupCheck st.dedup ev.meta.pid ev.meta.mask ev.file_path
    if sd.1 then
      let hc := handle_event ev none st.cache
      (some hc.1, ⟨sd.2, hc.2⟩)
    else (none, ⟨sd.2, st.cache⟩)

/-- Result of walking one drained batch: the emitted records, the
drained records they came from, the per-event fds closed (in order),
and the final loop state. -/
structure BatchResult where
  emitted : List FileAccessEvent
  emittedSrcs : List DrainedEvent
  closes : List Int
  final : LoopState
  deriving DecidableEq

/-- The inner batch walk (fanotify.rs lines 156-213): a record with an
unexpected version aborts the rest of the batch; every other record is
handled by `stepRecord` and its fd is closed exactly once afterwards. -/
def processBatch (st : LoopState) : List DrainedEvent → BatchResult
  | [] => ⟨[], [], [], st⟩
  | ev :: rest =>
    if ev.meta.vers ≠ 3 then ⟨[], [], [], st⟩
    else
      let so := stepRecord st ev
      let r := processBatch so.2 rest
      match so.1 with
      | some e =>
        ⟨e :: r.emitted, ev :: r.emittedSrcs, ev.meta.fd :: r.closes,
         r.final⟩
      | none => ⟨r.emitted, r.emittedSrcs, ev.meta.fd :: r.closes, r.final⟩

/-- The subsequence of records that pass the deduplicator, threading
its state exactly as the loop does: the reference sequence for the
order-preservation claim. -/
def dedupScan (d? : Option EventDeduplicator) :
    List DrainedEvent → List DrainedEvent
  | [] => []
  | ev :: rest =>
    let sd := dedupCheck d? ev.meta.pid ev.meta.mask ev.file_path
    if sd.1 then ev :: dedupScan sd.2 rest else dedupScan sd.2 rest

/-! ## Concrete inputs used by witnesses and counterexamples -/

/-- A drained record whose process-info read fails with a
non-ProcessGone error. -/
def cexDrainedErr : DrainedEvent :=
  ⟨⟨24, 3, 24, 1, 5, 7⟩, ("/tmp/f").data, .err, none, ("t").data,
   ("x").data⟩

/-- An emitted record with both optional fields absent. -/
def cexJsonEvent : FileAccessEvent :=
  ⟨("OPEN").data, ("2025-01-15 09:41:12").data, 1, none, 0, 0,
   ("/usr/bin/cat").data, ("/tmp/a").data, none⟩

/-! ## Theorems -/

/-- C3 bridging fact: `mask & FAN_MODIFY` in terms of bit 1. -/
theorem and_fan_modify (mask : Nat) :
    mask &&& FAN_MODIFY = (Nat.testBit mask 1).toNat * 2 := by
  have h := Nat.and_two_pow mask 1
  norm_num at h
  simpa [FAN_MODIFY] using h

/-- C3 bridging fact: `mask & FAN_OPEN` in terms of bit 5. -/
theorem and_fan_open (mask : Nat) :
    mask &&& FAN_OPEN = (Nat.testBit mask 5).toNat * 32 := by
  have h := Nat.and_two_pow mask 5
  norm_num at h
  simpa [FAN_OPEN] using h

/-- C3: the classifier is a function of the mask assigning exactly one
kind by first match: MODIFY bit set gives WRITE; otherwise OPEN bit set
gives OPEN; otherwise READ.  `handle_event` emits a single record and
stamps it with exactly that kind. -/
theorem mask_classification (mask : Nat) :
    (Nat.testBit mask 1 = true → classifyMask mask = EventType.Write) ∧
    (Nat.testBit mask 1 = false → Nat.testBit mask 5 = true →
      classifyMask mask = EventType.Open) ∧
    (Nat.testBit mask 1 = false → Nat.testBit mask 5 = false →
      classifyMask mask = EventType.Read) ∧
    (∀ (ev : DrainedEvent) (info? : Option ProcessInfo)
        (cache : List (Int × List Char)),
      (handle_event ev info? cache).1.event_type =
        eventTypeName (classifyMask ev.meta.mask)) := by
  refine ⟨?_, ?_, ?_, ?_⟩
  · intro h
    simp [classifyMask, and_fan_modify, h]
  · intro h1 h5
    simp [classifyMask, and_fan_modify, and_fan_open, h1, h5]
  · intro h1 h5
    simp [classifyMask, and_fan_modify, and_fan_open, h1, h5]
  · intro ev info? cache
    cases info? <;> simp [handle_event, create_event]

/-- C3 witness: mask 0x22 has both OPEN and MODIFY set and classifies
as WRITE. -/
theorem mask_classification_witness :
    Nat.testBit 0x22 1 = true ∧ classifyMask 0x22 = EventType.Write :=
  ⟨by decide, (mask_classification 0x22).1 (by decide)⟩

/-- C4 (amended): a call to `is_duplicate` reports a duplicate exactly
when the stored state already equals the arguments; the state is
overwritten on every call, so when the prior state differs in any field
two consecutive identical calls yield `(false, true)`, and the second
of two identical calls always returns `true`. -/
theorem dedup_pair_calls (d : EventDeduplicator) (pid : Int) (mask : Nat)
    (path : List Char) :
    (d ≠ ⟨pid, mask, path⟩ → (is_duplicate d pid mask path).1 = false) ∧
    (is_duplicate d pid mask path).2 = ⟨pid, mask, path⟩ ∧
    (is_duplicate (is_duplicate d pid mask path).2 pid mask path).1 =
      true := by
  refine ⟨?_, rfl, ?_⟩
  · intro h
    cases hx : (is_duplicate d pid mask path).1
    · rfl
    · exfalso
      apply h
      simp only [is_duplicate, Bool.and_eq_true, beq_iff_eq] at hx
      obtain ⟨⟨h1, h2⟩, h3⟩ := hx
      cases d
      simp_all
  · simp [is_duplicate]

/-- C4 witness: from the fresh initial state, a pair of identical calls
starts with `false`. -/
theorem dedup_pair_calls_witness :
    EventDeduplicator.new ≠ (⟨7, 2, ("/f").data⟩ : EventDeduplicator) ∧
    (is_duplicate EventDeduplicator.new 7 2 (("/f").data)).1 = false :=
  ⟨by decide, (dedup_pair_calls EventDeduplicator.new 7 2 (("/f").data)).1
    (by decide)⟩

/-- C4 counterexample: when the stored state already equals the triple,
the first of the two consecutive calls reports `true`, not `false`. -/
theorem dedup_prior_state_cex :
    (is_duplicate ⟨7, 2, ("/f").data⟩ 7 2 (("/f").data)).1 = true := by
  decide

/-- C5 helper: with `container_pid` absent, the serialized record
contains the `container_pid` key with a `null` value. -/
theorem serialize_null_cpid (e : FileAccessEvent)
    (h : e.container_pid = none) :
    occursIn ((",\"container_pid\":null").data) (serialize_event e) := by
  refine ⟨("\x7b\"event_type\":").data ++ jsonStringLit e.event_type ++
    (",\"timestamp\":").data ++ jsonStringLit e.timestamp ++
    (",\"pid\":").data ++ intJson e.pid,
    (",\"uid\":").data ++ natJson e.uid ++
    (",\"gid\":").data ++ natJson e.gid ++
    (",\"process_path\":").data ++ jsonStringLit e.process_path ++
    (",\"file_path\":").data ++ jsonStringLit e.file_path ++
    (",\"container_id\":").data ++ optStrJson e.container_id ++
    ("\x7d").data, ?_⟩
  rw [show ((",\"container_pid\":null").data : List Char) =
    (",\"container_pid\":").data ++ ("null").data from rfl]
  simp [serialize_event, h, optIntJson, List.append_assoc]

/-- C5 helper: with `container_id` absent, the serialized record
contains the `container_id` key with a `null` value. -/
theorem serialize_null_cid (e : FileAccessEvent)
    (h : e.container_id = none) :
    occursIn ((",\"container_id\":null").data) (serialize_event e) := by
  refine ⟨("\x7b\"event_type\":").data ++ jsonStringLit e.event_type ++
    (",\"timestamp\":").data ++ jsonStringLit e.timestamp ++
    (",\"pid\":").data ++ intJson e.pid ++
    (",\"container_pid\":").data ++ optIntJson e.container_pid ++
    (",\"uid\":").data ++ natJson e.uid ++
    (",\"gid\":").data ++ natJson e.gid ++
    (",\"process_path\":").data ++ jsonStringLit e.process_path ++
    (",\"file_path\":").data ++ jsonStringLit e.file_path,
    ("\x7d").data, ?_⟩
  rw [show ((",\"container_id\":null").data : List Char) =
    (",\"container_id\":").data ++ ("null").data from rfl]
  simp [serialize_event, h, optStrJson, List.append_assoc]

/-- C5 (amended): in JSON mode an absent `container_pid` or
`container_id` is serialized as an explicit `null` value — the key
still appears, it is not omitted. -/
theorem json_null_fields (e : FileAccessEvent) :
    (e.container_pid = none →
      occursIn ((",\"container_pid\":null").data) (serialize_event e)) ∧
    (e.container_id = none →
      occursIn ((",\"container_id\":null").data) (serialize_event e)) :=
  ⟨serialize_null_cpid e, serialize_null_cid e⟩

/-- C5 witness: concrete record with both optional fields absent. -/
theorem json_null_fields_witness :
    cexJsonEvent.container_pid = none ∧
    occursIn ((",\"container_pid\":null").data)
      (serialize_event cexJsonEvent) :=
  ⟨rfl, (json_null_fields cexJsonEvent).1 rfl⟩

/-- C5 counterexample: the `container_pid` key appears (with `null`)
in the serialization of a record whose `container_pid` is absent,
refuting the claim that the key is omitted entirely. -/
theorem json_cpid_key_present_cex :
    occursIn ((",\"container_pid\":null").data)
      (serialize_event cexJsonEvent) :=
  serialize_null_cpid cexJsonEvent rfl

/-- C9 helper: the uid accumulator stays 0 across the scan when every
`Uid:` line has an unparsable or missing second token. -/
theorem idsFold_fst_zero (ls : List (List Char)) :
    ∀ ug : Nat × Nat,
      (∀ l ∈ ls, uidTag.isPrefixOf l → secondTokenU32 l = none) →
      ug.1 = 0 → (ls.foldl idsStep ug).1 = 0 := by
  induction ls with
  | nil => intro ug _ h0; simpa using h0
  | cons l ls ih =>
    intro ug hall h0
    simp only [List.foldl_cons]
    apply ih
    · intro x hx hpre
      exact hall x (List.mem_cons_of_mem _ hx) hpre
    · by_cases hu : uidTag.isPrefixOf l
      · simp [idsStep, hu, hall l (List.mem_cons_self _ _) hu]
      · by_cases hg : gidTag.isPrefixOf l
        · simp [idsStep, hu, hg, h0]
        · simp [idsStep, hu, hg, h0]

/-- C9 helper: the gid accumulator stays 0 across the scan when every
`Gid:` line has an unparsable or missing second token. -/
theorem idsFold_snd_zero (ls : List (List Char)) :
    ∀ ug : Nat × Nat,
      (∀ l ∈ ls, gidTag.isPrefixOf l → secondTokenU32 l = none) →
      ug.2 = 0 → (ls.foldl idsStep ug).2 = 0 := by
  induction ls with
  | nil => intro ug _ h0; simpa using h0
  | cons l ls ih =>
    intro ug hall h0
    simp only [List.foldl_cons]
    apply ih
    · intro x hx hpre
      exact hall x (List.mem_cons_of_mem _ hx) hpre
    · by_cases hu : uidTag.isPrefixOf l
      · simp [idsStep, hu, h0]
      · by_cases hg : gidTag.isPrefixOf l
        · simp [idsStep, hu, hg, hall l (List.mem_cons_self _ _) hg]
        · simp [idsStep, hu, hg, h0]

/-- C9: whenever the status read succeeds `get_ids_from_pid` returns
`Ok`; a missing `Uid:`/`Gid:` line, or one whose second
whitespace-separated token does not parse as a u32, leaves the
corresponding field at the default 0. -/
theorem get_ids_ok_and_defaults (pid : Int) (content : List Char) :
    (∃ u g, get_ids_from_pid pid (Except.ok content) =
      Except.ok (u, g)) ∧
    ((∀ l ∈ rustLines content,
        uidTag.isPrefixOf l → secondTokenU32 l = none) →
      (get_ids_from_content content).1 = 0) ∧
    ((∀ l ∈ rustLines content,
        gidTag.isPrefixOf l → secondTokenU32 l = none) →
      (get_ids_from_content content).2 = 0) := by
  refine ⟨⟨(get_ids_from_content content).1,
    (get_ids_from_content content).2, rfl⟩, ?_, ?_⟩
  · intro h
    exact idsFold_fst_zero _ _ h rfl
  · intro h
    exact idsFold_snd_zero _ _ h rfl

/-- C9 witness: a status text whose `Uid:` token is not numeric yields
uid 0. -/
theorem get_ids_ok_and_defaults_witness :
    (∀ l ∈ rustLines (("Uid:\tabc\nName:\tx").data),
      uidTag.isPrefixOf l → secondTokenU32 l = none) ∧
    (get_ids_from_content (("Uid:\tabc\nName:\tx").data)).1 = 0 :=
  ⟨by decide,
   (get_ids_ok_and_defaults 1 (("Uid:\tabc\nName:\tx").data)).2.1
     (by decide)⟩

/-- C6 (code bug): with the exe resolution yielding the `[42]` sentinel
and a known comm `cat` that the bin cache can resolve, the snapshot
keeps `[42]`: the sentinel contains no `/`, so the first branch looks
up the sentinel itself and the comm-based branch is unreachable. -/
theorem sentinel_comm_not_resolved :
    get_process_info 42
      (Except.ok (("Name:\tcat\nUid:\t0\t0\t0\t0\nGid:\t0\t0\t0\t0").data))
      ⟨none, none, fun _ => false, none⟩
      [(("cat").data, ("/usr/bin/cat").data)] =
      Except.ok ⟨42, 0, 0, none, ("cat").data, ("[42]").data⟩ ∧
    List.lookup (("cat").data)
      [(("cat").data, ("/usr/bin/cat").data)] =
      some (("/usr/bin/cat").data) ∧
    ("[42]").data ≠ ("/usr/bin/cat").data := by
  refine ⟨by rfl, by decide, by decide⟩

/-- C7 helper: a block of repeated copies of `pat` commutes with one
more copy. -/
theorem replicate_join_comm (pat : List Char) (k : Nat) :
    (List.replicate k pat).flatten ++ pat =
      pat ++ (List.replicate k pat).flatten := by
  induction k with
  | zero => simp
  | succ n ih =>
    rw [List.replicate_succ, List.flatten_cons, List.append_assoc, ih]

/-- C7 helper: with enough fuel, `trimEndMatchesAux` removes a whole
block of trailing copies of the pattern and nothing else, and its
result no longer ends in the pattern. -/
theorem trimAux_spec (pat : List Char) (hp : pat ≠ []) :
    ∀ (f : Nat) (s : List Char), s.length ≤ f →
      (∃ k, s = trimEndMatchesAux pat f s ++
        (List.replicate k pat).flatten) ∧
      pat.isSuffixOf (trimEndMatchesAux pat f s) = false := by
  intro f
  induction f with
  | zero =>
    intro s hs
    have hnil : s = [] := List.length_eq_zero.mp (Nat.le_zero.mp hs)
    subst hnil
    refine ⟨⟨0, by simp [trimEndMatchesAux]⟩, ?_⟩
    cases hx : pat.isSuffixOf ((trimEndMatchesAux pat 0 []))
    · rfl
    · exfalso
      apply hp
      have hsuf := List.isSuffixOf_iff_suffix.mp hx
      simpa [trimEndMatchesAux] using List.suffix_nil.mp
        (by simpa [trimEndMatchesAux] using hsuf)
  | succ f ih =>
    intro s hs
    by_cases hsuf : pat.isSuffixOf s
    · have hsx : pat <:+ s := List.isSuffixOf_iff_suffix.mp hsuf
      obtain ⟨t, ht⟩ := hsx
      have hpl : 0 < pat.length := List.length_pos.mpr hp
      have htake : s.take (s.length - pat.length) = t := by
        rw [← ht, List.length_append, Nat.add_sub_cancel]
        exact List.take_left t pat
      have hlen : t.length ≤ f := by
        have hsl : s.length = t.length + pat.length := by
          rw [← ht, List.length_append]
        omega
      have hstep : trimEndMatchesAux pat (f + 1) s =
          trimEndMatchesAux pat f t := by
        have hne : pat.isEmpty = false := by
          cases pat with
          | nil => exact absurd rfl hp
          | cons a l => rfl
        simp [trimEndMatchesAux, hsuf, hne, htake]
      obtain ⟨⟨k, hk⟩, hns⟩ := ih t hlen
      refine ⟨⟨k + 1, ?_⟩, ?_⟩
      · rw [hstep, ← ht]
        conv_lhs => rw [hk]
        rw [List.append_assoc, replicate_join_comm,
          List.replicate_succ, List.flatten_cons]
      · rw [hstep]
        exact hns
    · have hres : trimEndMatchesAux pat (f + 1) s = s := by
        simp [trimEndMatchesAux, hsuf]
      refine ⟨⟨0, by simp [hres]⟩, ?_⟩
      rw [hres]
      exact Bool.eq_false_iff.mpr hsuf

/-- C7 (amended): when the exe symlink resolves, `get_process_path`
returns the link text with every trailing copy of `" (deleted)"`
removed (Rust `trim_end_matches` strips repeatedly): the result no
longer ends in the marker, and only whole trailing copies were
removed — interior occurrences are kept. -/
theorem strip_deleted_amended (pid : Int) (env : ProcEnv)
    (path : List Char) (h : env.exe_link = some path) :
    get_process_path pid env = trimEndMatches deletedMarker path ∧
    (∃ k, path = get_process_path pid env ++
      (List.replicate k deletedMarker).flatten) ∧
    deletedMarker.isSuffixOf (get_process_path pid env) = false := by
  have h1 : get_process_path pid env = trimEndMatches deletedMarker path := by
    simp only [get_process_path, h]
  obtain ⟨⟨k, hk⟩, hns⟩ :=
    trimAux_spec deletedMarker (by decide) path.length path le_rfl
  refine ⟨h1, ⟨k, ?_⟩, ?_⟩
  · rw [h1]
    exact hk
  · rw [h1]
    exact hns

/-- C7 witness: a link text with one trailing marker. -/
theorem strip_deleted_amended_witness :
    (ProcEnv.mk (some (("/x (deleted)").data)) none (fun _ => false)
        none).exe_link = some (("/x (deleted)").data) ∧
    (get_process_path 9
        ⟨some (("/x (deleted)").data), none, fun _ => false, none⟩ =
      trimEndMatches deletedMarker (("/x (deleted)").data) ∧
    (∃ k, ("/x (deleted)").data =
      get_process_path 9
        ⟨some (("/x (deleted)").data), none, fun _ => false, none⟩ ++
        (List.replicate k deletedMarker).flatten) ∧
    deletedMarker.isSuffixOf (get_process_path 9
      ⟨some (("/x (deleted)").data), none, fun _ => false, none⟩) =
      false) :=
  ⟨rfl, strip_deleted_amended 9
    ⟨some (("/x (deleted)").data), none, fun _ => false, none⟩
    (("/x (deleted)").data) rfl⟩

/-- C7 counterexample: a link text ending in the marker twice loses
both copies, not exactly one — the claim's predicted result
`/a (deleted)` is not what the code returns. -/
theorem strip_deleted_repeated_cex :
    get_process_path 9
      ⟨some (("/a (deleted) (deleted)").data), none, fun _ => false,
       none⟩ = ("/a").data ∧
    ("/a").data ≠ ("/a (deleted)").data := by
  refine ⟨by rfl, by decide⟩

/-- C8 helper: a successful byte slice returns a prefix of exactly the
requested byte length. -/
theorem byteTake_spec (s : List Char) :
    ∀ (n : Nat) (p : List Char), byteTake s n = some p →
      byteLen p = n ∧ ∃ r, s = p ++ r := by
  induction s with
  | nil =>
    intro n p h
    cases n with
    | zero =>
      simp only [byteTake, Option.some.injEq] at h
      subst h
      exact ⟨rfl, [], rfl⟩
    | succ m => simp [byteTake] at h
  | cons c cs ih =>
    intro n p h
    cases n with
    | zero =>
      simp only [byteTake, Option.some.injEq] at h
      subst h
      exact ⟨rfl, c :: cs, rfl⟩
    | succ m =>
      simp only [byteTake] at h
      by_cases hw : c.utf8Size ≤ m + 1
      · rw [if_pos hw] at h
        rw [Option.map_eq_some'] at h
        obtain ⟨q, hq, hpq⟩ := h
        obtain ⟨hlen, r, hr⟩ := ih _ _ hq
        subst hpq
        constructor
        · simp only [byteLen, List.map_cons, List.sum_cons] at hlen ⊢
          omega
        · exact ⟨r, by simp [hr]⟩
      · rw [if_neg hw] at h
        exact absurd h (by simp)

/-- C8 (amended): every id the extractor returns is at most 12 bytes
long (hence at most 12 characters) and is a prefix of the trimmed
final path segment of the line; no hex filtering is applied. -/
theorem container_id_amended (line id : List Char)
    (h : extract_container_id line = Except.ok (some id)) :
    byteLen id ≤ 12 ∧
    ∃ t r, tailAfterLastSlash line = some t ∧ rustTrim t = id ++ r := by
  unfold extract_container_id at h
  cases htail : tailAfterLastSlash line with
  | none =>
    rw [htail] at h
    simp at h
  | some rest =>
    rw [htail] at h
    simp only at h
    by_cases hlen : 12 ≤ byteLen (rustTrim rest)
    · rw [if_pos hlen] at h
      cases hbt : byteTake (rustTrim rest) 12 with
      | none =>
        rw [hbt] at h
        simp at h
      | some p =>
        rw [hbt] at h
        simp only [Except.ok.injEq, Option.some.injEq] at h
        subst h
        obtain ⟨hbl, r, hr⟩ := byteTake_spec _ _ _ hbt
        exact ⟨by omega, rest, r, rfl, hr⟩
    · rw [if_neg hlen] at h
      by_cases hne : (rustTrim rest).isEmpty
      · simp [hne] at h
      · simp only [hne, Bool.not_false, if_true, Except.ok.injEq,
          Option.some.injEq] at h
        subst h
        exact ⟨by omega, rest, [], rfl, by simp⟩

/-- C8 witness: a 64-hex docker tail is cut to its 12-byte prefix. -/
theorem container_id_amended_witness :
    extract_container_id (("12:pids:/docker/0123456789abcdef").data) =
      Except.ok (some (("0123456789ab").data)) ∧
    (byteLen (("0123456789ab").data) ≤ 12 ∧
     ∃ t r, tailAfterLastSlash (("12:pids:/docker/0123456789abcdef").data)
       = some t ∧ rustTrim t = ("0123456789ab").data ++ r) :=
  ⟨by rfl, container_id_amended _ _ (by rfl)⟩

/-- C8 counterexample: a tail segment made of non-hex characters still
yields an id, refuting the hex-compatibility part of the claim. -/
theorem container_id_nonhex_cex :
    extract_container_id (("12:pids:/docker/zzz").data) =
      Except.ok (some (("zzz").data)) ∧
    'z' ∈ ("zzz").data ∧ specHexCompatible 'z' = false := by
  refine ⟨by rfl, by decide, by decide⟩

/-- C10 (code bug): a line whose tail segment is 11 ASCII characters
followed by one 3-byte character makes byte 12 a non-boundary, so the
Rust slice `&id[..12]` panics; the model reports the panic. -/
theorem extract_panic_multibyte :
    extract_container_id
      ('/' :: (List.replicate 11 'a' ++ [Char.ofNat 8364])) =
      Except.error () := by
  rfl

/-- C2: every record the loop consumes (the longest version-3 prefix of
the batch; the three handling paths — emit, duplicate-suppressed, and
snapshot-error skip — are all inside `stepRecord`) has its fd closed
exactly once, in consumption order, and no fd is closed twice for the
same record. -/
theorem fd_closed_exactly_once (st : LoopState)
    (batch : List DrainedEvent) :
    (processBatch st batch).closes =
      (batch.takeWhile (fun ev => ev.meta.vers == 3)).map
        (fun ev => ev.meta.fd) := by
  induction batch generalizing st with
  | nil => rfl
  | cons ev rest ih =>
    by_cases hv : ev.meta.vers = 3
    · cases hso : (stepRecord st ev).1 <;>
        simp [processBatch, hv, hso, List.takeWhile_cons, ih]
    · simp [processBatch, hv, List.takeWhile_cons]

/-- C1 helper: the emitted sources are exactly the consumed records
that survive the snapshot-error skip, filtered by the deduplicator
scan threading the loop's own state. -/
theorem processBatch_srcs_scan (st : LoopState)
    (batch : List DrainedEvent) :
    (processBatch st batch).emittedSrcs =
      dedupScan st.dedup
        ((batch.takeWhile (fun ev => ev.meta.vers == 3)).filter
          (fun ev => !ev.proc.isErr)) := by
  induction batch generalizing st with
  | nil => rfl
  | cons ev rest ih =>
    by_cases hv : ev.meta.vers = 3
    · cases hp : ev.proc with
      | err =>
        simp [processBatch, stepRecord, hv, hp, List.takeWhile_cons,
          List.filter_cons, ProcInfoResult.isErr, ih]
      | ok info =>
        rcases hsd : dedupCheck st.dedup ev.meta.pid ev.meta.mask
          ev.file_path with ⟨b, d2⟩
        cases b <;>
          simp [processBatch, stepRecord, dedupScan, hv, hp, hsd,
            List.takeWhile_cons, List.filter_cons,
            ProcInfoResult.isErr, ih]
      | gone =>
        rcases hsd : dedupCheck st.dedup ev.meta.pid ev.meta.mask
          ev.file_path with ⟨b, d2⟩
        cases b <;>
          simp [processBatch, stepRecord, dedupScan, hv, hp, hsd,
            List.takeWhile_cons, List.filter_cons,
            ProcInfoResult.isErr, ih]
    · simp [processBatch, hv, List.takeWhile_cons, dedupScan]

/-- C1 helper: the deduplicator scan only removes elements. -/
theorem dedupScan_sublist (l : List DrainedEvent) :
    ∀ d? : Option EventDeduplicator, List.Sublist (dedupScan d? l) l := by
  induction l with
  | nil => intro d?; simp [dedupScan]
  | cons ev rest ih =>
    intro d?
    simp only [dedupScan]
    by_cases hb :
        (dedupCheck d? ev.meta.pid ev.meta.mask ev.file_path).1
    · simp only [hb, if_true]
      exact List.Sublist.cons₂ _ (ih _)
    · simp only [hb, if_false]
      exact List.Sublist.cons _ (ih _)

/-- C1 helper: each emitted record corresponds to one emitted source. -/
theorem processBatch_emitted_len (st : LoopState)
    (batch : List DrainedEvent) :
    (processBatch st batch).emitted.length =
      (processBatch st batch).emittedSrcs.length := by
  induction batch generalizing st with
  | nil => rfl
  | cons ev rest ih =>
    by_cases hv : ev.meta.vers = 3
    · cases hso : (stepRecord st ev).1 <;>
        simp [processBatch, hv, hso, ih]
    · simp [processBatch, hv]

/-- C1 (amended): the emitted records correspond one-to-one, in order,
with a subsequence of the drained batch; the records omitted are
exactly those suppressed by the deduplicator, those whose process-info
read failed with a non-ProcessGone error, and those from the first
version-mismatched record onward. -/
theorem batch_emission_amended (st : LoopState)
    (batch : List DrainedEvent) :
    (processBatch st batch).emittedSrcs =
      dedupScan st.dedup
        ((batch.takeWhile (fun ev => ev.meta.vers == 3)).filter
          (fun ev => !ev.proc.isErr)) ∧
    List.Sublist (processBatch st batch).emittedSrcs batch ∧
    (processBatch st batch).emitted.length =
      (processBatch st batch).emittedSrcs.length := by
  refine ⟨processBatch_srcs_scan st batch, ?_,
    processBatch_emitted_len st batch⟩
  rw [processBatch_srcs_scan st batch]
  exact (dedupScan_sublist _ _).trans
    ((List.filter_sublist _).trans (List.takeWhile_prefix _).sublist)

/-- C1 counterexample: with the deduplicator disabled (so it suppresses
nothing), a drained version-3 record whose snapshot read fails with a
non-ProcessGone error is dropped: the emitted sequence omits a record
the deduplicator did not suppress. -/
theorem batch_emission_cex :
    (processBatch ⟨none, []⟩ [cexDrainedErr]).emitted = [] ∧
    (processBatch ⟨none, []⟩ [cexDrainedErr]).emittedSrcs = [] ∧
    cexDrainedErr.meta.vers = 3 ∧
    dedupScan none [cexDrainedErr] = [cexDrainedErr] := by
  refine ⟨by rfl, by rfl, by rfl, by rfl⟩
